import Mathlib

/-!
Shallow embedding of the color-classification engine of `clothes-quiz`.

Two configurations of the classifier exist in the repository:
* `CC` embeds `src/utils/colorClassifier.ts` (5-entry palette, achromatic
  thresholds s<15 / v<20, confidence radius 45, confidence floor 0.4);
* `P0` embeds the unnamed variant (`part_000`: 7-entry palette with three
  purple landmarks, thresholds s<8 / v<15, radius 60, no confidence floor,
  plus `forceClassifyColor`).

JavaScript numbers are modelled as exact rationals (ℚ).  Byte access
`data[idx] ?? 0` on an out-of-range or negative index is modelled as
returning 0, exactly as the nullish fallback does.
-/

/-- The closed label set of the engine.  The Korean strings of the source are
rendered as Lean constructors: 하늘색 = skyBlue, 노란색 = yellow,
주황색 = orange, 빨간색 = red, 보라색 = purple, 알 수 없음 = unknown. -/
inductive ColorLabel where
  | skyBlue
  | yellow
  | orange
  | red
  | purple
  | unknown
  deriving DecidableEq, Repr

open ColorLabel

/-- The `{label, confidence}` pair returned by `classifyColor`. -/
structure LabelConf where
  label : ColorLabel
  confidence : ℚ
  deriving DecidableEq, Repr

/-- An HSV triple as returned by `rgbToHsv`. -/
structure Hsv where
  h : ℚ
  s : ℚ
  v : ℚ
  deriving DecidableEq, Repr

/-- An RGB triple (the `{r, g, b}` field of `ColorResult`). -/
structure Rgb where
  r : ℚ
  g : ℚ
  b : ℚ
  deriving DecidableEq, Repr

/-- The `ColorResult` record of the source. -/
structure ColorResult where
  label : ColorLabel
  confidence : ℚ
  rgb : Rgb
  hsv : Hsv
  deriving DecidableEq, Repr

/-- Truncation toward zero, as JavaScript coerces in its `%` operator. -/
def ratTrunc (q : ℚ) : ℤ := if 0 ≤ q then ⌊q⌋ else ⌈q⌉

/-- JavaScript remainder `x % y`: `x - y * trunc(x / y)` (sign of dividend). -/
def jsRem (x y : ℚ) : ℚ := x - y * (ratTrunc (x / y) : ℚ)

/-- JavaScript `Math.round` for the non-negative values that occur here:
round half up, i.e. `⌊x + 1/2⌋`. -/
def jsRound (q : ℚ) : ℤ := ⌊q + 1/2⌋

/-- JavaScript `Math.abs` on rationals, written out so that it evaluates by
unfolding (Mathlib's `|·|` on ℚ goes through order instances that do not
reduce); `jsAbs_eq` below identifies it with `|·|`. -/
def jsAbs (q : ℚ) : ℚ := if q < 0 then -q else q

/-- JavaScript `Math.min` on rationals; `jsMin_eq` identifies it with `min`. -/
def jsMin (a b : ℚ) : ℚ := if a ≤ b then a else b

/-- JavaScript `Math.max` on rationals; `jsMax_eq` identifies it with `max`. -/
def jsMax (a b : ℚ) : ℚ := if a ≤ b then b else a

/-- The local `max` of `rgbToHsv`: `Math.max(r, g, b)` on the channels
normalized to [0,1]. -/
def chanMax (r g b : ℚ) : ℚ := jsMax (r / 255) (jsMax (g / 255) (b / 255))

/-- The local `min` of `rgbToHsv`. -/
def chanMin (r g b : ℚ) : ℚ := jsMin (r / 255) (jsMin (g / 255) (b / 255))

/-- The local `diff = max - min` of `rgbToHsv`. -/
def chanDiff (r g b : ℚ) : ℚ := chanMax r g b - chanMin r g b

/-- The raw hue of `rgbToHsv` before the negative wrap: 0 when `diff = 0`,
otherwise the six-sector formula dispatching on the first channel attaining
`max` (`switch (max) { case r: ...; case g: ...; case b: ... }`; the final
0 is the unreachable no-case fallthrough leaving `h` at its initial 0). -/
def hueRaw (r g b : ℚ) : ℚ :=
  if chanDiff r g b ≠ 0 then
    if chanMax r g b = r / 255 then
      60 * jsRem ((g / 255 - b / 255) / chanDiff r g b) 6
    else if chanMax r g b = g / 255 then
      60 * ((b / 255 - r / 255) / chanDiff r g b + 2)
    else if chanMax r g b = b / 255 then
      60 * ((r / 255 - g / 255) / chanDiff r g b + 4)
    else 0
  else 0

/-- The hue of `rgbToHsv`: the raw hue, wrapped by +360 when negative. -/
def hueVal (r g b : ℚ) : ℚ :=
  if hueRaw r g b < 0 then hueRaw r g b + 360 else hueRaw r g b

/-- The saturation of `rgbToHsv`: `(max == 0 ? 0 : diff / max) * 100`. -/
def satVal (r g b : ℚ) : ℚ :=
  (if chanMax r g b = 0 then 0 else chanDiff r g b / chanMax r g b) * 100

/-- The value of `rgbToHsv`: `max * 100`. -/
def valVal (r g b : ℚ) : ℚ := chanMax r g b * 100

/-- `rgbToHsv` (identical in both source files), assembled from the pieces
above. -/
def rgbToHsv (r g b : ℚ) : Hsv :=
  ⟨hueVal r g b, satVal r g b, valVal r g b⟩

/-- One step of the nearest-target loop shared by both classifiers: the
accumulator holds `minDistance` (`none` models the `Infinity` start, and any
finite distance compares below it) and `closestLabel`; the update keeps the
strict-minimum entry, ties keeping the earlier one. -/
def nearestStep (dist : ColorLabel × ℚ → ℚ) (acc : Option ℚ × ColorLabel)
    (t : ColorLabel × ℚ) : Option ℚ × ColorLabel :=
  let d := dist t
  match acc.1 with
  | none => (some d, t.1)
  | some m => if d < m then (some d, t.1) else acc

/-- The full nearest-target loop: fold `nearestStep` over the palette,
starting from `minDistance = Infinity`, `closestLabel = unknown`. -/
def nearestHue (dist : ColorLabel × ℚ → ℚ) (palette : List (ColorLabel × ℚ)) :
    Option ℚ × ColorLabel :=
  palette.foldl (nearestStep dist) (none, ColorLabel.unknown)

namespace CC

/-- `TARGET_COLORS` of `colorClassifier.ts`. -/
def TARGET_COLORS : List (ColorLabel × ℚ) :=
  [(red, 0), (orange, 25), (yellow, 50), (skyBlue, 195), (purple, 280)]

/-- Distance of hue `h` to one palette entry, as computed inside the loop of
`classifyColor`: `|h - target.h|`, folded by `360 - dist` when above 180,
with the red entry additionally taking the minimum against the same formula
applied to `|h - 360|`. -/
def targetDist (h : ℚ) (t : ColorLabel × ℚ) : ℚ :=
  let d0 := jsAbs (h - t.2)
  let d := if d0 > 180 then 360 - d0 else d0
  if t.1 = red then
    let e0 := jsAbs (h - 360)
    let d2 := if e0 > 180 then 360 - e0 else e0
    jsMin d d2
  else d

/-- `classifyColor` of `colorClassifier.ts`: achromatic gate (`s < 15 ||
v < 20` ↦ unknown at confidence 0.5), nearest-hue search, confidence
`max(0, 1 - minDistance/45)`, and the 0.4 confidence floor downgrading to
unknown.  The `none` branch is the unreachable empty-palette case, where
`minDistance` would stay `Infinity` and the confidence `max(0, -Infinity)`
collapse to 0, below the floor. -/
def classifyColor (h s v : ℚ) : LabelConf :=
  if s < 15 ∨ v < 20 then ⟨ColorLabel.unknown, 1/2⟩
  else
    match nearestHue (targetDist h) TARGET_COLORS with
    | (some minDistance, closestLabel) =>
      let confidence := jsMax 0 (1 - minDistance / 45)
      if confidence < 2/5 then ⟨ColorLabel.unknown, confidence⟩
      else ⟨closestLabel, confidence⟩
    | (none, _) => ⟨ColorLabel.unknown, 0⟩

end CC

namespace P0

/-- `TARGET_COLORS` of the `part_000` variant: three hue landmarks all map
to the purple label. -/
def TARGET_COLORS : List (ColorLabel × ℚ) :=
  [(red, 0), (orange, 25), (yellow, 50), (skyBlue, 175),
   (purple, 210), (purple, 250), (purple, 290)]

/-- Distance of hue `h` to one palette entry in the `part_000` variant: as
in `CC.targetDist` except that the red wrap check takes `|h - 360|` raw,
without the `> 180` fold. -/
def targetDist (h : ℚ) (t : ColorLabel × ℚ) : ℚ :=
  let d0 := jsAbs (h - t.2)
  let d := if d0 > 180 then 360 - d0 else d0
  if t.1 = red then
    let d2 := jsAbs (h - 360)
    jsMin d d2
  else d

/-- `classifyColor` of `part_000`: gate `s < 8 || v < 15`, radius 60, and no
confidence floor — the nearest label is always returned on chromatic input.
The `none` branch is again the unreachable empty-palette case. -/
def classifyColor (h s v : ℚ) : LabelConf :=
  if s < 8 ∨ v < 15 then ⟨ColorLabel.unknown, 1/2⟩
  else
    match nearestHue (targetDist h) TARGET_COLORS with
    | (some minDistance, closestLabel) =>
      ⟨closestLabel, jsMax 0 (1 - minDistance / 60)⟩
    | (none, _) => ⟨ColorLabel.unknown, 0⟩

/-- `forceClassifyColor` of `part_000`: the same nearest-hue loop as
`classifyColor` (lines 108-121 repeat lines 79-93 verbatim), with no gate
and no confidence computation; only the label is returned. -/
def forceClassifyColor (h : ℚ) : ColorLabel :=
  (nearestHue (targetDist h) TARGET_COLORS).2

end P0

/-- The `ImageData` buffer: `width`, `height`, and the flat byte array
`data` (RGBA, four bytes per pixel when well formed; the code never relies
on that shape thanks to the `?? 0` fallbacks). -/
structure ImageData where
  width : ℕ
  height : ℕ
  data : List ℕ

/-- `data[idx] ?? 0`: a negative or past-the-end index yields `undefined`
in JavaScript, which the nullish fallback turns into 0. -/
def byteAt (data : List ℕ) (idx : ℤ) : ℕ :=
  if 0 ≤ idx then data.getD idx.toNat 0 else 0

/-- Number of iterations of the loop `for (p = start; p < stop; p += step)`:
zero when `stop ≤ start`, else `⌈(stop - start) / step⌉`.  (The value for
`step = 0` is irrelevant: the source only uses the constants 2 and 3.) -/
def scanCount (step : ℕ) (start stop : ℤ) : ℕ :=
  (stop - start + step - 1).toNat / step

/-- The values `p` visited by `for (p = start; p < stop; p += step)`, in
order: the arithmetic progression `start, start + step, ...` of length
`scanCount step start stop`. -/
def scanLoop (step : ℕ) (start stop : ℤ) : List ℤ :=
  (List.range (scanCount step start stop)).map
    fun j : ℕ => start + (step : ℤ) * (j : ℤ)

/-- The pixel positions `(px, py)` visited by the nested sampling loops of
`analyzeRegionColor` (step 2) and `extractDominantColors` (step 3): the
outer loop runs `py` from `y` while `py < y + height && py < imageData.height`,
the inner runs `px` from `x` while `px < x + width && px < imgWidth`. -/
def regionPositions (step : ℕ) (img : ImageData) (x y w h : ℤ) :
    List (ℤ × ℤ) :=
  (scanLoop step y (min (y + h) img.height)).flatMap fun py =>
    (scanLoop step x (min (x + w) img.width)).map fun px => (px, py)

/-- The three bytes read for position `(px, py)`:
`idx = (py * imgWidth + px) * 4` and `data[idx..idx+2] ?? 0`. -/
def pixelAt (img : ImageData) (px py : ℤ) : ℕ × ℕ × ℕ :=
  let idx := (py * img.width + px) * 4
  (byteAt img.data idx, byteAt img.data (idx + 1), byteAt img.data (idx + 2))

namespace CC

/-- The empty-region result of `analyzeRegionColor` (`count === 0`). -/
def emptyResult : ColorResult :=
  ⟨ColorLabel.unknown, 0, ⟨0, 0, 0⟩, ⟨0, 0, 0⟩⟩

/-- `analyzeRegionColor`: sample the region at stride 2, accumulate the
channel sums and the count, return the sentinel empty result at count 0,
otherwise classify the rounded mean color. -/
def analyzeRegionColor (img : ImageData) (x y w h : ℤ) : ColorResult :=
  let ps := regionPositions 2 img x y w h
  let count := ps.length
  if count = 0 then emptyResult
  else
    let totalR : ℕ := (ps.map fun p => (pixelAt img p.1 p.2).1).sum
    let totalG : ℕ := (ps.map fun p => (pixelAt img p.1 p.2).2.1).sum
    let totalB : ℕ := (ps.map fun p => (pixelAt img p.1 p.2).2.2).sum
    let r : ℚ := (jsRound ((totalR : ℚ) / count) : ℚ)
    let g : ℚ := (jsRound ((totalG : ℚ) / count) : ℚ)
    let b : ℚ := (jsRound ((totalB : ℚ) / count) : ℚ)
    let hsv := rgbToHsv r g b
    let lc := classifyColor hsv.h hsv.s hsv.v
    ⟨lc.label, lc.confidence, ⟨r, g, b⟩, hsv⟩

end CC

/-- A sampled pixel or centroid: an RGB triple of rationals (centroids
become non-integral after the mean step). -/
def Pix := ℚ × ℚ × ℚ

instance : DecidableEq Pix := instDecidableEqProd

/-- The pixel population sampled by `extractDominantColors` (stride 3). -/
def samplePixels (img : ImageData) (x y w h : ℤ) : List Pix :=
  (regionPositions 3 img x y w h).map fun p =>
    let c := pixelAt img p.1 p.2
    ((c.1 : ℚ), (c.2.1 : ℚ), (c.2.2 : ℚ))

/-- The squared Euclidean RGB distance.  The source computes
`Math.sqrt(...)` and only ever compares distances; since the square root is
strictly monotone on the non-negative reals, comparing the squares is the
same comparison, and keeps the model inside ℚ. -/
def distSq (p c : Pix) : ℚ :=
  (p.1 - c.1) ^ 2 + (p.2.1 - c.2.1) ^ 2 + (p.2.2 - c.2.2) ^ 2

/-- The assignment loop body of `kMeansClustering` for one pixel: scan the
centroid indices `i < k` (skipping any missing entry, like the
`if (!centroid) continue`), tracking the strict minimum distance starting
from `Infinity` (`none`) and `best = 0`. -/
def bestIndex (k : ℕ) (centroids : List Pix) (p : Pix) : ℕ :=
  ((List.range k).foldl
    (fun acc i =>
      match centroids.get? i with
      | none => acc
      | some c =>
        let d := distSq p c
        match acc.1 with
        | none => (some d, i)
        | some m => if d < m then (some d, i) else acc)
    ((none : Option ℚ), 0)).2

/-- The assignment phase of one k-means round: start from `k` empty
clusters and push every pixel, in order, onto the cluster of its best
centroid (`clusters[best].push(p)`; the `if (clusters[best])` guard skips a
pixel only when `best` has no slot, i.e. when `k = 0`). -/
def assignClusters (pixels : List Pix) (k : ℕ) (centroids : List Pix) :
    List (List Pix) :=
  pixels.foldl
    (fun cls p =>
      let best := bestIndex k centroids p
      match cls.get? best with
      | some c => cls.set best (c ++ [p])
      | none => cls)
    (List.replicate k [])

/-- The per-channel arithmetic mean of a cluster, as accumulated by the
update loop (`r += p[0]; ...; r / cluster.length`). -/
def meanPix (cl : List Pix) : Pix :=
  ((cl.map fun p => p.1).sum / cl.length,
   (cl.map fun p => p.2.1).sum / cl.length,
   (cl.map fun p => p.2.2).sum / cl.length)

/-- The update phase of one k-means round: for each index `i < k` (the
reachable states have `centroids.length = k = clusters.length`), a cluster
with at least one member replaces its centroid by the member mean;
an empty cluster leaves `centroids[i]` untouched. -/
def updateCentroids : List (List Pix) → List Pix → List Pix
  | cl :: cls, c :: cs =>
    (if cl.length > 0 then meanPix cl else c) :: updateCentroids cls cs
  | [], c :: cs => c :: updateCentroids [] cs
  | _, [] => []

/-- One refinement round of `kMeansClustering`: assignment then update. -/
def kmeansRound (pixels : List Pix) (k : ℕ) (centroids : List Pix) :
    List Pix :=
  updateCentroids (assignClusters pixels k centroids) centroids

/-- `kMeansClustering`, with the `Math.random()` draws supplied as the
stream `rand` (the i-th initialization draw is `rand i`, a real call always
lands in `[0,1)`): guard the empty population, initialize `k` centroids
from random pixels (an out-of-range index — impossible for genuine draws —
is skipped like the source's `if (pixel)` guard), top up by duplicating the
first centroid while `centroids.length < k && centroids.length > 0`, and
run the fixed number of refinement rounds. -/
def kMeansClustering (pixels : List Pix) (k iterations : ℕ)
    (rand : ℕ → ℚ) : List Pix :=
  if pixels.length = 0 then []
  else
    let init := (List.range k).foldl
      (fun cs i =>
        let randIdx := ⌊rand i * pixels.length⌋
        match (if 0 ≤ randIdx then pixels.get? randIdx.toNat else none) with
        | some pixel => cs ++ [pixel]
        | none => cs)
      []
    let cs :=
      match init.head? with
      | some c0 => init ++ List.replicate (k - init.length) c0
      | none => init
    (List.range iterations).foldl (fun c _ => kmeansRound pixels k c) cs

namespace CC

/-- `extractDominantColors`: sample at stride 3; with fewer pixels than `k`
fall back to the single `analyzeRegionColor` result; otherwise run k-means
for 10 rounds, classify every centroid, and drop the unknown-labelled
results. -/
def extractDominantColors (img : ImageData) (x y w h : ℤ) (k : ℕ)
    (rand : ℕ → ℚ) : List ColorResult :=
  let pixels := samplePixels img x y w h
  if pixels.length < k then [analyzeRegionColor img x y w h]
  else
    let centroids := kMeansClustering pixels k 10 rand
    (centroids.map fun c =>
      let hsv := rgbToHsv c.1 c.2.1 c.2.2
      let lc := classifyColor hsv.h hsv.s hsv.v
      (⟨lc.label, lc.confidence,
        ⟨(jsRound c.1 : ℚ), (jsRound c.2.1 : ℚ), (jsRound c.2.2 : ℚ)⟩,
        hsv⟩ : ColorResult)).filter
      fun c => c.label ≠ ColorLabel.unknown

end CC

/-! ## Bridge lemmas for the JavaScript-style primitives -/

lemma jsAbs_eq (q : ℚ) : jsAbs q = |q| := by
  unfold jsAbs
  rcases lt_or_le q 0 with hq | hq
  · rw [if_pos hq, abs_of_neg hq]
  · rw [if_neg (not_lt.mpr hq), abs_of_nonneg hq]

lemma jsMin_eq (a b : ℚ) : jsMin a b = min a b := (min_def a b).symm

lemma jsMax_eq (a b : ℚ) : jsMax a b = max a b := (max_def a b).symm

/-! ## Helper lemmas on the nearest-target fold -/

lemma nearestStep_fst_isSome (dist : ColorLabel × ℚ → ℚ)
    (acc : Option ℚ × ColorLabel) (t : ColorLabel × ℚ) :
    ((nearestStep dist acc t).1).isSome := by
  obtain ⟨o, l⟩ := acc
  cases o with
  | none => rfl
  | some m =>
    simp only [nearestStep]
    split <;> rfl

lemma foldl_nearestStep_isSome (dist : ColorLabel × ℚ → ℚ) :
    ∀ (l : List (ColorLabel × ℚ)) (acc : Option ℚ × ColorLabel),
    acc.1.isSome → ((l.foldl (nearestStep dist) acc).1).isSome := by
  intro l
  induction l with
  | nil => intro acc hacc; exact hacc
  | cons t ts ih =>
    intro acc _
    rw [List.foldl_cons]
    exact ih (nearestStep dist acc t) (nearestStep_fst_isSome dist acc t)

lemma nearestHue_isSome (dist : ColorLabel × ℚ → ℚ) (t : ColorLabel × ℚ)
    (ts : List (ColorLabel × ℚ)) :
    ((nearestHue dist (t :: ts)).1).isSome := by
  unfold nearestHue
  rw [List.foldl_cons]
  exact foldl_nearestStep_isSome dist ts _ (nearestStep_fst_isSome dist _ t)

lemma foldl_nearestStep_label_mem (dist : ColorLabel × ℚ → ℚ) :
    ∀ (l : List (ColorLabel × ℚ)) (acc : Option ℚ × ColorLabel),
    (l.foldl (nearestStep dist) acc).2 = acc.2 ∨
      (l.foldl (nearestStep dist) acc).2 ∈ l.map Prod.fst := by
  intro l
  induction l with
  | nil => intro acc; exact Or.inl rfl
  | cons t ts ih =>
    intro acc
    rw [List.foldl_cons]
    rcases ih (nearestStep dist acc t) with h | h
    · rw [h]
      obtain ⟨o, lab⟩ := acc
      cases o with
      | none => exact Or.inr (by simp [nearestStep])
      | some m =>
        simp only [nearestStep]
        split
        · exact Or.inr (by simp)
        · exact Or.inl rfl
    · exact Or.inr (List.mem_cons_of_mem _ h)

lemma nearestHue_label_mem (dist : ColorLabel × ℚ → ℚ) (t : ColorLabel × ℚ)
    (ts : List (ColorLabel × ℚ)) :
    (nearestHue dist (t :: ts)).2 ∈ (t :: ts).map Prod.fst := by
  unfold nearestHue
  rw [List.foldl_cons]
  rcases foldl_nearestStep_label_mem dist ts (nearestStep dist (none, ColorLabel.unknown) t) with h | h
  · rw [h]
    simp [nearestStep]
  · exact List.mem_cons_of_mem _ h

/-! ## Claim C2: the achromatic gate -/

/-- C2: in both configurations, any input below the saturation or value
threshold (s < 15 or v < 20 in `colorClassifier.ts`; s < 8 or v < 15 in
`part_000`) yields the unknown label with confidence exactly 0.5,
regardless of the hue. -/
theorem C2_achromatic_gate :
    (∀ h s v : ℚ, s < 15 ∨ v < 20 →
      CC.classifyColor h s v = ⟨ColorLabel.unknown, 1/2⟩) ∧
    (∀ h s v : ℚ, s < 8 ∨ v < 15 →
      P0.classifyColor h s v = ⟨ColorLabel.unknown, 1/2⟩) := by
  constructor
  · intro h s v hg
    simp [CC.classifyColor, hg]
  · intro h s v hg
    simp [P0.classifyColor, hg]

/-- Witness for C2 at `(h, s, v) = (200, 3, 50)` and `(200, 3, 50)`. -/
theorem C2_achromatic_gate_witness :
    CC.classifyColor 200 3 50 = ⟨ColorLabel.unknown, 1/2⟩ ∧
    P0.classifyColor 200 3 50 = ⟨ColorLabel.unknown, 1/2⟩ :=
  ⟨C2_achromatic_gate.1 200 3 50 (Or.inl (by norm_num)),
   C2_achromatic_gate.2 200 3 50 (Or.inl (by norm_num))⟩

/-! ## Claim C6: forceClassifyColor never returns unknown -/

/-- C6: `forceClassifyColor` of `part_000` runs the same nearest-hue loop as
`classifyColor` (it is literally `(nearestHue (targetDist h) TARGET_COLORS).2`
for the same `targetDist` and palette), has no achromatic gate and no floor,
and over the non-empty palette never returns the unknown label, for every
hue input, the boundary values 0 and 360 included. -/
theorem C6_force_classify_not_unknown :
    ∀ h : ℚ, P0.forceClassifyColor h ≠ ColorLabel.unknown := by
  intro h heq
  have hmem : (nearestHue (P0.targetDist h) P0.TARGET_COLORS).2 ∈
      P0.TARGET_COLORS.map Prod.fst :=
    nearestHue_label_mem (P0.targetDist h) _ _
  rw [show (nearestHue (P0.targetDist h) P0.TARGET_COLORS).2 =
      P0.forceClassifyColor h from rfl, heq] at hmem
  exact absurd hmem (by decide)

/-! ## Claim C10: the empty-region sentinel of analyzeRegionColor -/

/-- C10: whenever the sampling loops of `analyzeRegionColor` visit zero
positions, the function returns the sentinel: unknown label, confidence 0,
rgb (0,0,0) and hsv (0,0,0); being a total function, it raises nothing. -/
theorem C10_empty_region_sentinel :
    ∀ (img : ImageData) (x y w h : ℤ),
    (regionPositions 2 img x y w h).length = 0 →
    CC.analyzeRegionColor img x y w h =
      ⟨ColorLabel.unknown, 0, ⟨0, 0, 0⟩, ⟨0, 0, 0⟩⟩ := by
  intro img x y w h hlen
  simp [CC.analyzeRegionColor, CC.emptyResult, hlen]

/-- Witness for C10: a width-0 region of a 2×2 buffer samples no pixel. -/
theorem C10_empty_region_sentinel_witness :
    CC.analyzeRegionColor ⟨2, 2, List.replicate 16 255⟩ 0 0 0 2 =
      ⟨ColorLabel.unknown, 0, ⟨0, 0, 0⟩, ⟨0, 0, 0⟩⟩ :=
  C10_empty_region_sentinel ⟨2, 2, List.replicate 16 255⟩ 0 0 0 2 (by decide)

/-! ## Claim C7: under-populated clustering falls back to the mean path -/

/-- C7: when the stride-3 pixel population is smaller than `k`,
`extractDominantColors` returns exactly the one-element list holding the
`analyzeRegionColor` result of the same region, and k-means is not run. -/
theorem C7_small_population_fallback :
    ∀ (img : ImageData) (x y w h : ℤ) (k : ℕ) (rand : ℕ → ℚ),
    (samplePixels img x y w h).length < k →
    CC.extractDominantColors img x y w h k rand =
      [CC.analyzeRegionColor img x y w h] := by
  intro img x y w h k rand hlt
  simp [CC.extractDominantColors, hlt]

/-- Witness for C7: a 1×1 buffer yields one pixel, fewer than `k = 3`. -/
theorem C7_small_population_fallback_witness :
    CC.extractDominantColors ⟨1, 1, [255, 0, 0, 255]⟩ 0 0 1 1 3 (fun _ => 0) =
      [CC.analyzeRegionColor ⟨1, 1, [255, 0, 0, 255]⟩ 0 0 1 1] :=
  C7_small_population_fallback ⟨1, 1, [255, 0, 0, 255]⟩ 0 0 1 1 3 (fun _ => 0)
    (by decide)

/-! ## Claim C5: the confidence floor is per-configuration -/

/-- C5: in `colorClassifier.ts` (floor enabled), a chromatic input whose
nearest-hue confidence `max(0, 1 - minDistance/45)` computes below 0.4
yields the unknown label carrying that confidence unchanged; in `part_000`
(floor disabled), every chromatic input yields the nearest palette label,
never unknown. -/
theorem C5_confidence_floor_policy :
    (∀ (h s v m : ℚ) (lbl : ColorLabel), ¬(s < 15 ∨ v < 20) →
      nearestHue (CC.targetDist h) CC.TARGET_COLORS = (some m, lbl) →
      jsMax 0 (1 - m / 45) < 2/5 →
      CC.classifyColor h s v = ⟨ColorLabel.unknown, jsMax 0 (1 - m / 45)⟩) ∧
    (∀ h s v : ℚ, ¬(s < 8 ∨ v < 15) →
      (P0.classifyColor h s v).label ≠ ColorLabel.unknown) := by
  constructor
  · intro h s v m lbl hgate hnear hconf
    simp only [CC.classifyColor]
    rw [if_neg hgate, hnear]
    dsimp only
    rw [if_pos hconf]
  · intro h s v hgate heq
    have hsome : ((nearestHue (P0.targetDist h) P0.TARGET_COLORS).1).isSome :=
      nearestHue_isSome (P0.targetDist h) _ _
    have hmem : (nearestHue (P0.targetDist h) P0.TARGET_COLORS).2 ∈
        P0.TARGET_COLORS.map Prod.fst :=
      nearestHue_label_mem (P0.targetDist h) _ _
    rcases hne : nearestHue (P0.targetDist h) P0.TARGET_COLORS with ⟨o, lbl⟩
    rw [hne] at hsome hmem
    cases o with
    | none => simp at hsome
    | some m =>
      simp only [P0.classifyColor] at heq
      rw [if_neg hgate, hne] at heq
      dsimp only at heq
      rw [show ((some m, lbl) : Option ℚ × ColorLabel).2 = lbl from rfl,
        heq] at hmem
      exact absurd hmem (by decide)

/-- Witness for C5: in `colorClassifier.ts` the green hue 120 (distance 70
to yellow, confidence 0) is downgraded to unknown at its computed
confidence; in `part_000` the same chromatic input keeps its nearest label
(sky blue, at distance 55 to the 175 landmark). -/
theorem C5_confidence_floor_policy_witness :
    CC.classifyColor 120 100 100 = ⟨ColorLabel.unknown, jsMax 0 (1 - 70 / 45)⟩ ∧
    (P0.classifyColor 120 100 100).label ≠ ColorLabel.unknown :=
  ⟨C5_confidence_floor_policy.1 120 100 100 70 ColorLabel.yellow
    (by norm_num)
    (by norm_num +decide [nearestHue, nearestStep, CC.targetDist,
      CC.TARGET_COLORS, jsAbs, jsMin])
    (by norm_num [jsMax]),
   C5_confidence_floor_policy.2 120 100 100 (by norm_num)⟩

/-! ## Claim C8: results of a genuine clustering run carry no unknowns -/

/-- C8: when the population reaches `k`, every result returned by
`extractDominantColors` has a non-unknown label (unknown-labelled centroids
are filtered out), and when every final centroid classifies as unknown the
returned sequence is empty; the function is total, so no exception. -/
theorem C8_cluster_results_filtered :
    ∀ (img : ImageData) (x y w h : ℤ) (k : ℕ) (rand : ℕ → ℚ),
    k ≤ (samplePixels img x y w h).length →
    ((CC.extractDominantColors img x y w h k rand).all
      (fun c => c.label ≠ ColorLabel.unknown) = true) ∧
    (((kMeansClustering (samplePixels img x y w h) k 10 rand).all
        (fun p => (CC.classifyColor (rgbToHsv p.1 p.2.1 p.2.2).h
          (rgbToHsv p.1 p.2.1 p.2.2).s (rgbToHsv p.1 p.2.1 p.2.2).v).label =
            ColorLabel.unknown) = true) →
      CC.extractDominantColors img x y w h k rand = []) := by
  intro img x y w h k rand hk
  have hnlt : ¬((samplePixels img x y w h).length < k) := not_lt.mpr hk
  constructor
  · rw [List.all_eq_true]
    intro c hc
    simp only [CC.extractDominantColors] at hc
    rw [if_neg hnlt] at hc
    rw [List.mem_filter] at hc
    simpa using hc.2
  · intro hall
    rw [List.all_eq_true] at hall
    simp only [CC.extractDominantColors]
    rw [if_neg hnlt]
    rw [List.filter_eq_nil_iff]
    intro a ha
    rw [List.mem_map] at ha
    obtain ⟨p, hp, rfl⟩ := ha
    simpa using of_decide_eq_true (hall p hp)

/-- Witness for C8: a 1×1 red buffer with `k = 1` has population 1 ≥ k,
and the theorem yields the all-non-unknown guarantee for its results. -/
theorem C8_cluster_results_filtered_witness :
    (CC.extractDominantColors ⟨1, 1, [255, 0, 0, 255]⟩ 0 0 1 1 1
      (fun _ => 0)).all (fun c => c.label ≠ ColorLabel.unknown) = true :=
  (C8_cluster_results_filtered ⟨1, 1, [255, 0, 0, 255]⟩ 0 0 1 1 1
    (fun _ => 0) (by decide)).1

/-! ## Claim C9: the k-means update step -/

/-- Index-wise description of `updateCentroids`: position `i` of the output
is position `i` of the old centroids, replaced by the cluster mean exactly
when cluster `i` exists and is non-empty. -/
lemma updateCentroids_get? (cls : List (List Pix)) (cs : List Pix) (i : ℕ) :
    (updateCentroids cls cs).get? i =
      (cs.get? i).map (fun c =>
        match cls.get? i with
        | some cl => if cl.length > 0 then meanPix cl else c
        | none => c) := by
  induction cs generalizing cls i with
  | nil =>
    cases cls with
    | nil => simp [updateCentroids]
    | cons cl cls => simp [updateCentroids]
  | cons c cs ih =>
    cases cls with
    | nil =>
      cases i with
      | zero => simp [updateCentroids]
      | succ j => simpa [updateCentroids] using ih [] j
    | cons cl cls =>
      cases i with
      | zero => simp [updateCentroids]
      | succ j => simpa [updateCentroids] using ih cls j

/-- C9: in any refinement round, a cluster that received no pixels leaves
its centroid unchanged (no reseeding), and a cluster with at least one
pixel gets the per-channel arithmetic mean of its members. -/
theorem C9_round_update_invariant :
    ∀ (pixels : List Pix) (k : ℕ) (centroids : List Pix) (i : ℕ)
      (cl : List Pix),
    centroids.length = k → i < k →
    (assignClusters pixels k centroids).get? i = some cl →
    ((cl = [] →
      (kmeansRound pixels k centroids).get? i = centroids.get? i) ∧
     (cl ≠ [] →
      (kmeansRound pixels k centroids).get? i = some (meanPix cl))) := by
  intro pixels k centroids i cl hlen hik hcl
  have hil : i < centroids.length := by rw [hlen]; exact hik
  have hsome : centroids.get? i = some (centroids.get ⟨i, hil⟩) :=
    List.get?_eq_get hil
  unfold kmeansRound
  rw [updateCentroids_get?, hcl, hsome]
  constructor
  · intro hnil
    rw [hnil]
    simp
  · intro hne
    have hpos : cl.length > 0 := List.length_pos.mpr hne
    simp [hpos]

/-- Witness for C9, empty-cluster side: with one pixel at the origin and
centroids at the origin and at (500,500,500), cluster 1 receives nothing
and its centroid survives the round unchanged. -/
theorem C9_round_update_invariant_witness :
    (kmeansRound [((0 : ℚ), (0 : ℚ), (0 : ℚ))] 2
      [((0 : ℚ), (0 : ℚ), (0 : ℚ)), ((500 : ℚ), (500 : ℚ), (500 : ℚ))]).get? 1 =
    [((0 : ℚ), (0 : ℚ), (0 : ℚ)), ((500 : ℚ), (500 : ℚ), (500 : ℚ))].get? 1 :=
  (C9_round_update_invariant [((0 : ℚ), (0 : ℚ), (0 : ℚ))] 2
    [((0 : ℚ), (0 : ℚ), (0 : ℚ)), ((500 : ℚ), (500 : ℚ), (500 : ℚ))] 1 []
    rfl (by decide)
    (by norm_num [assignClusters, bestIndex, distSq, List.range_succ])).1 rfl

/-! ## Claim C4: circular symmetry of classifyColor -/

/-- Counterexample to C4 as stated: at the chromatic input h = 195 (the
sky-blue landmark), `classifyColor` of `colorClassifier.ts` returns
(skyBlue, 1), but at h + 360 = 555 the wrap formula `360 - dist` turns
red's distance into -195, so the call returns (red, 16/3): the two results
differ in both label and confidence. -/
theorem C4_counterexample :
    CC.classifyColor 195 100 100 ≠ CC.classifyColor (195 + 360) 100 100 := by
  norm_num +decide [CC.classifyColor, nearestHue, nearestStep,
    CC.targetDist, CC.TARGET_COLORS, jsAbs, jsMin, jsMax]

/-- C4 amended: `classifyColor(h)` and `classifyColor(h+360)` coincide when
the achromatic gate fires (the gate reads only s and v) and at the hue
boundary h = 0; for chromatic inputs with h > 0 the single `360 - dist`
wrap produces negative distances at h + 360 and the results differ
(`C4_counterexample`). -/
theorem C4_amended_circular_symmetry :
    (∀ h s v : ℚ, s < 15 ∨ v < 20 ∨ h = 0 →
      CC.classifyColor h s v = CC.classifyColor (h + 360) s v) ∧
    (∀ h s v : ℚ, s < 8 ∨ v < 15 ∨ h = 0 →
      P0.classifyColor h s v = P0.classifyColor (h + 360) s v) := by
  constructor
  · intro h s v hcase
    rcases hcase with hs | hv | h0
    · simp [CC.classifyColor, hs]
    · simp [CC.classifyColor, hv]
    · subst h0
      rw [show (0 : ℚ) + 360 = 360 by norm_num]
      have hnear : nearestHue (CC.targetDist 0) CC.TARGET_COLORS =
          nearestHue (CC.targetDist 360) CC.TARGET_COLORS := by
        norm_num +decide [nearestHue, nearestStep, CC.targetDist,
          CC.TARGET_COLORS, jsAbs, jsMin]
      simp only [CC.classifyColor, hnear]
  · intro h s v hcase
    rcases hcase with hs | hv | h0
    · simp [P0.classifyColor, hs]
    · simp [P0.classifyColor, hv]
    · subst h0
      rw [show (0 : ℚ) + 360 = 360 by norm_num]
      have hnear : nearestHue (P0.targetDist 0) P0.TARGET_COLORS =
          nearestHue (P0.targetDist 360) P0.TARGET_COLORS := by
        norm_num +decide [nearestHue, nearestStep, P0.targetDist,
          P0.TARGET_COLORS, jsAbs, jsMin]
      simp only [P0.classifyColor, hnear]

/-- Witness for the amended C4 at the h = 0 boundary in both
configurations. -/
theorem C4_amended_circular_symmetry_witness :
    CC.classifyColor 0 50 50 = CC.classifyColor (0 + 360) 50 50 ∧
    P0.classifyColor 0 50 50 = P0.classifyColor (0 + 360) 50 50 :=
  ⟨C4_amended_circular_symmetry.1 0 50 50 (Or.inr (Or.inr rfl)),
   C4_amended_circular_symmetry.2 0 50 50 (Or.inr (Or.inr rfl))⟩

/-! ## Claim C1: clipping of the sampling loops -/

/-- Every value visited by `for (p = start; p < stop; p += step)` lies in
`[start, stop)`. -/
lemma scanLoop_mem {step : ℕ} {start stop p : ℤ}
    (hp : p ∈ scanLoop step start stop) : start ≤ p ∧ p < stop := by
  unfold scanLoop at hp
  rw [List.mem_map] at hp
  obtain ⟨j, hj, rfl⟩ := hp
  rw [List.mem_range] at hj
  have hjnn : (0 : ℤ) ≤ (step : ℤ) * (j : ℤ) := by positivity
  refine ⟨by linarith, ?_⟩
  rcases Nat.eq_zero_or_pos step with hstep | hstep
  · subst hstep
    rw [scanCount, Nat.div_zero] at hj
    exact absurd hj (Nat.not_lt_zero j)
  · rw [scanCount] at hj
    have h1 : step * (j + 1) ≤ (stop - start + step - 1).toNat := by
      calc step * (j + 1) ≤ step * ((stop - start + step - 1).toNat / step) :=
            Nat.mul_le_mul_left _ hj
        _ = (stop - start + step - 1).toNat / step * step := Nat.mul_comm _ _
        _ ≤ (stop - start + step - 1).toNat := Nat.div_mul_le_self _ _
    rcases le_or_lt 0 (stop - start + step - 1) with hnn | hneg
    · have h2 : ((stop - start + step - 1).toNat : ℤ) = stop - start + step - 1 :=
        Int.toNat_of_nonneg hnn
      have h3 : (step : ℤ) * (j + 1) ≤ stop - start + step - 1 := by
        rw [← h2]; exact_mod_cast h1
      have hs1 : (1 : ℤ) ≤ step := by exact_mod_cast hstep
      nlinarith [h3, hs1]
    · have h2 : (stop - start + step - 1).toNat = 0 := Int.toNat_of_nonpos hneg.le
      rw [h2, Nat.le_zero, Nat.mul_eq_zero] at h1
      omega

/-- A loop whose bound is at or below its start visits nothing. -/
lemma scanLoop_empty {step : ℕ} {start stop : ℤ} (hss : stop ≤ start) :
    scanLoop step start stop = [] := by
  unfold scanLoop scanCount
  rcases Nat.eq_zero_or_pos step with hstep | hstep
  · subst hstep
    rw [Nat.div_zero]
    rfl
  · have hlt : (stop - start + step - 1).toNat < step := by omega
    rw [Nat.div_eq_of_lt hlt]
    rfl

/-- Counterexample to C1 as stated: with a 1×1 buffer and the region
`x = 0, y = -2, w = 1, h = 1` (whose intersection with the buffer is
empty), the loops still visit the position (0, -2) — its row -2 lies
outside the buffer — count it (count = 1, not 0), and the result is the
achromatic-gate value (unknown at confidence 0.5) of the fallback-black
pixel, not the empty-region result. -/
theorem C1_counterexample :
    ((0, -2) ∈ regionPositions 2 (ImageData.mk 1 1 [255, 0, 0, 255]) 0 (-2) 1 1) ∧
    ((-2 : ℤ) < 0) ∧
    CC.analyzeRegionColor (ImageData.mk 1 1 [255, 0, 0, 255]) 0 (-2) 1 1 ≠
      CC.emptyResult := by
  refine ⟨by decide, by decide, ?_⟩
  have hpos : regionPositions 2 (ImageData.mk 1 1 [255, 0, 0, 255]) 0 (-2) 1 1 =
      [(0, -2)] := by decide
  have hpix : pixelAt (ImageData.mk 1 1 [255, 0, 0, 255]) 0 (-2) = (0, 0, 0) := by
    decide
  norm_num [CC.analyzeRegionColor, CC.emptyResult, hpos, hpix, jsRound,
    rgbToHsv, hueVal, hueRaw, satVal, valVal, chanMax, chanMin, chanDiff,
    jsAbs, jsMin, jsMax, jsRem, ratTrunc, CC.classifyColor]

/-- C1 amended: the sampling loops of both `analyzeRegionColor` (stride 2)
and `extractDominantColors` (stride 3) clip only against the requested
rectangle and the buffer's right/bottom edges — every visited position
satisfies `x ≤ px < min(x+w, width)` and `y ≤ py < min(y+h, height)` — and
non-positive width or height yields the empty population; but positions
with negative coordinates are NOT clipped: they are visited and counted,
their channel reads defaulting to 0 (`C1_counterexample`). -/
theorem C1_amended_clipping :
    (∀ (step : ℕ) (img : ImageData) (x y w h : ℤ) (p : ℤ × ℤ),
      p ∈ regionPositions step img x y w h →
      x ≤ p.1 ∧ p.1 < min (x + w) (img.width : ℤ) ∧
      y ≤ p.2 ∧ p.2 < min (y + h) (img.height : ℤ)) ∧
    (∀ (step : ℕ) (img : ImageData) (x y w h : ℤ),
      w ≤ 0 ∨ h ≤ 0 → regionPositions step img x y w h = []) := by
  constructor
  · intro step img x y w h p hp
    unfold regionPositions at hp
    rw [List.mem_flatMap] at hp
    obtain ⟨py, hpy, hpx⟩ := hp
    rw [List.mem_map] at hpx
    obtain ⟨px, hpx, rfl⟩ := hpx
    obtain ⟨hx1, hx2⟩ := scanLoop_mem hpx
    obtain ⟨hy1, hy2⟩ := scanLoop_mem hpy
    exact ⟨hx1, hx2, hy1, hy2⟩
  · intro step img x y w h hwh
    unfold regionPositions
    rcases hwh with hw | hh
    · have hin : scanLoop step x (min (x + w) (img.width : ℤ)) = [] :=
        scanLoop_empty (le_trans (min_le_left _ _) (by linarith))
      simp [hin]
    · have hout : scanLoop step y (min (y + h) (img.height : ℤ)) = [] :=
        scanLoop_empty (le_trans (min_le_left _ _) (by linarith))
      simp [hout]

/-- Witness for the amended C1: in a 4×4 buffer with the full region
requested at stride 2, the visited position (2, 2) satisfies all four
clipping bounds, and a width of -1 gives the empty population. -/
theorem C1_amended_clipping_witness :
    ((0 : ℤ) ≤ 2 ∧ (2 : ℤ) < min (0 + 4) ((4 : ℕ) : ℤ) ∧
     (0 : ℤ) ≤ 2 ∧ (2 : ℤ) < min (0 + 4) ((4 : ℕ) : ℤ)) ∧
    regionPositions 2 (ImageData.mk 4 4 []) 0 0 (-1) 4 = [] :=
  ⟨C1_amended_clipping.1 2 (ImageData.mk 4 4 []) 0 0 4 4 (2, 2) (by decide),
   C1_amended_clipping.2 2 (ImageData.mk 4 4 []) 0 0 (-1) 4 (Or.inl (by decide))⟩

/-! ## Claim C3: ranges of rgbToHsv -/

/-- The JavaScript remainder by 6 is the identity on [-1, 1]. -/
lemma jsRem_small {x : ℚ} (h1 : -1 ≤ x) (h2 : x ≤ 1) : jsRem x 6 = x := by
  unfold jsRem ratTrunc
  rcases le_or_lt 0 (x / 6) with hx | hx
  · rw [if_pos hx]
    have hfl : ⌊x / 6⌋ = 0 :=
      Int.floor_eq_zero_iff.mpr ⟨hx, by rw [div_lt_one (by norm_num)]; linarith⟩
    rw [hfl]
    push_cast
    ring
  · rw [if_neg (not_le.mpr hx)]
    have hcl : ⌈x / 6⌉ = 0 :=
      Int.ceil_eq_zero_iff.mpr ⟨by rw [lt_div_iff₀ (by norm_num)]; linarith, hx.le⟩
    rw [hcl]
    push_cast
    ring

/-- Range bounds for the three HSV components over channel values in
[0, 255]. -/
lemma rgbToHsv_bounds (r g b : ℚ) (hr0 : 0 ≤ r) (hr1 : r ≤ 255)
    (hg0 : 0 ≤ g) (hg1 : g ≤ 255) (hb0 : 0 ≤ b) (hb1 : b ≤ 255) :
    (0 ≤ hueVal r g b ∧ hueVal r g b < 360) ∧
    (0 ≤ satVal r g b ∧ satVal r g b ≤ 100) ∧
    (0 ≤ valVal r g b ∧ valVal r g b ≤ 100) := by
  have hM : chanMax r g b = max (r / 255) (max (g / 255) (b / 255)) := by
    rw [chanMax, jsMax_eq, jsMax_eq]
  have hm : chanMin r g b = min (r / 255) (min (g / 255) (b / 255)) := by
    rw [chanMin, jsMin_eq, jsMin_eq]
  have hra : 0 ≤ r / 255 := by positivity
  have hga : 0 ≤ g / 255 := by positivity
  have hba : 0 ≤ b / 255 := by positivity
  have hrb : r / 255 ≤ 1 := (div_le_one (by norm_num)).mpr hr1
  have hgb : g / 255 ≤ 1 := (div_le_one (by norm_num)).mpr hg1
  have hbb : b / 255 ≤ 1 := (div_le_one (by norm_num)).mpr hb1
  have hrM : r / 255 ≤ chanMax r g b := by rw [hM]; exact le_max_left _ _
  have hgM : g / 255 ≤ chanMax r g b := by
    rw [hM]; exact le_max_of_le_right (le_max_left _ _)
  have hbM : b / 255 ≤ chanMax r g b := by
    rw [hM]; exact le_max_of_le_right (le_max_right _ _)
  have hmr : chanMin r g b ≤ r / 255 := by rw [hm]; exact min_le_left _ _
  have hmg : chanMin r g b ≤ g / 255 := by
    rw [hm]; exact le_trans (min_le_right _ _) (min_le_left _ _)
  have hmb : chanMin r g b ≤ b / 255 := by
    rw [hm]; exact le_trans (min_le_right _ _) (min_le_right _ _)
  have hM0 : 0 ≤ chanMax r g b := le_trans hra hrM
  have hM1 : chanMax r g b ≤ 1 := by
    rw [hM]; exact max_le hrb (max_le hgb hbb)
  have hm0 : 0 ≤ chanMin r g b := by
    rw [hm]; exact le_min hra (le_min hga hba)
  have hd0 : 0 ≤ chanDiff r g b := by rw [chanDiff]; linarith
  have hdM : chanDiff r g b ≤ chanMax r g b := by rw [chanDiff]; linarith
  have hraw : -60 ≤ hueRaw r g b ∧ hueRaw r g b ≤ 300 := by
    unfold hueRaw
    split_ifs with hdne hfr hfg hfb
    · have hdpos : 0 < chanDiff r g b := lt_of_le_of_ne hd0 (Ne.symm hdne)
      have hx1 : (g / 255 - b / 255) / chanDiff r g b ≤ 1 :=
        (div_le_one hdpos).mpr (by rw [chanDiff]; linarith)
      have hx0 : -1 ≤ (g / 255 - b / 255) / chanDiff r g b :=
        (le_div_iff₀ hdpos).mpr (by rw [chanDiff]; linarith)
      rw [jsRem_small hx0 hx1]
      constructor <;> linarith
    · have hdpos : 0 < chanDiff r g b := lt_of_le_of_ne hd0 (Ne.symm hdne)
      have hx1 : (b / 255 - r / 255) / chanDiff r g b ≤ 1 :=
        (div_le_one hdpos).mpr (by rw [chanDiff]; linarith)
      have hx0 : -1 ≤ (b / 255 - r / 255) / chanDiff r g b :=
        (le_div_iff₀ hdpos).mpr (by rw [chanDiff]; linarith)
      constructor <;> linarith
    · have hdpos : 0 < chanDiff r g b := lt_of_le_of_ne hd0 (Ne.symm hdne)
      have hx1 : (r / 255 - g / 255) / chanDiff r g b ≤ 1 :=
        (div_le_one hdpos).mpr (by rw [chanDiff]; linarith)
      have hx0 : -1 ≤ (r / 255 - g / 255) / chanDiff r g b :=
        (le_div_iff₀ hdpos).mpr (by rw [chanDiff]; linarith)
      constructor <;> linarith
    · constructor <;> norm_num
    · constructor <;> norm_num
  refine ⟨?_, ?_, ?_⟩
  · unfold hueVal
    split_ifs with hneg
    · constructor <;> linarith [hraw.1, hraw.2]
    · exact ⟨not_lt.mp hneg, by linarith [hraw.2]⟩
  · unfold satVal
    split_ifs with hMz
    · norm_num
    · have hMpos : 0 < chanMax r g b := lt_of_le_of_ne hM0 (Ne.symm hMz)
      have h1 : chanDiff r g b / chanMax r g b ≤ 1 := (div_le_one hMpos).mpr hdM
      have h2 : 0 ≤ chanDiff r g b / chanMax r g b := div_nonneg hd0 hM0
      constructor <;> linarith
  · unfold valVal
    constructor <;> linarith

/-- C3: for every RGB triple of integers in [0, 255], `rgbToHsv` returns a
hue in [0, 360) and saturation and value in [0, 100]. -/
theorem C3_rgbToHsv_ranges :
    ∀ (r g b : ℕ), r ≤ 255 → g ≤ 255 → b ≤ 255 →
    (0 ≤ (rgbToHsv r g b).h ∧ (rgbToHsv r g b).h < 360) ∧
    (0 ≤ (rgbToHsv r g b).s ∧ (rgbToHsv r g b).s ≤ 100) ∧
    (0 ≤ (rgbToHsv r g b).v ∧ (rgbToHsv r g b).v ≤ 100) := by
  intro r g b hr hg hb
  have hmain := rgbToHsv_bounds r g b (by positivity) (by exact_mod_cast hr)
    (by positivity) (by exact_mod_cast hg) (by positivity) (by exact_mod_cast hb)
  simpa [rgbToHsv] using hmain

/-- Witness for C3 at the orange-ish triple (255, 128, 0). -/
theorem C3_rgbToHsv_ranges_witness :
    (0 ≤ (rgbToHsv 255 128 0).h ∧ (rgbToHsv 255 128 0).h < 360) ∧
    (0 ≤ (rgbToHsv 255 128 0).s ∧ (rgbToHsv 255 128 0).s ≤ 100) ∧
    (0 ≤ (rgbToHsv 255 128 0).v ∧ (rgbToHsv 255 128 0).v ≤ 100) := by
  have := C3_rgbToHsv_ranges 255 128 0 (by norm_num) (by norm_num) (by norm_num)
  simpa using this
